import Mathlib

/-!
# Verification of the m4brew conversion engine (`scripts/m4brew.sh`)

Shallow embedding of the decision and file-handling logic of the shell
script `scripts/m4brew.sh`: folder classification, channel-policy
resolution, the per-book conversion executor, the three batch modes
(convert / correct / cleanup), setup checks (root existence, lock) and
the cancellation trap.  File systems are modelled as lists of named,
sized files per book folder; the external merge/remux tool is an oracle
supplying an exit status and the temp file it produced.
-/

namespace M4brew

/-- A top-level file in a book folder: name (basename) and size in bytes. -/
structure SFile where
  name : String
  size : Nat
deriving Repr, DecidableEq

/-- A book folder `root/Author/Book`: author and book names, top-level
files, and the `_backup_files` subdirectory (existence flag + contents). -/
structure Book where
  author : String
  book : String
  files : List SFile
  backupDir : Bool
  backupFiles : List SFile
deriving Repr, DecidableEq

/-- `MIN_BYTES=$((5 * 1024 * 1024))`: minimum acceptable output size. -/
def MIN_BYTES : Nat := 5 * 1024 * 1024

/-- ASCII lower-casing of one character (what `-iname` folds). -/
def lowerChar (c : Char) : Char :=
  if 65 ≤ c.toNat ∧ c.toNat ≤ 90 then Char.ofNat (c.toNat + 32) else c

/-- ASCII lower-casing of a character list. -/
def lowerL (s : List Char) : List Char := s.map lowerChar

/-- Does `s` end with `t` (on character lists)? -/
def endsWithL (s t : List Char) : Bool := s.reverse.take t.length == t.reverse

/-- Does `s` start with `t` (on character lists)? -/
def startsWithL (s t : List Char) : Bool := s.take t.length == t

/-- Case-insensitive extension test, mirroring `find -iname "*.ext"`
(`ext` is given lower-case). -/
def hasExtI (name ext : String) : Bool := endsWithL (lowerL name.data) ext.data

/-- Case-insensitive leading-pattern test, for `find -iname "pat*"`
(`pat` is given lower-case). -/
def startsWithI (name pat : String) : Bool := startsWithL (lowerL name.data) pat.data

/-- `find -iname "*.m4b"` match. -/
def isM4b (n : String) : Bool := hasExtI n ".m4b"

/-- `find -iname "*.mp3"` match. -/
def isMp3 (n : String) : Bool := hasExtI n ".mp3"

/-- `find -iname "*.m4a"` match. -/
def isM4a (n : String) : Bool := hasExtI n ".m4a"

/-- The in-flight temp exclusion `-iname ".tmp_*.m4b"` / `-iname "tmp_*.m4b"`
used by the convert-mode `.m4b` detection. -/
def isTempM4b (n : String) : Bool :=
  isM4b n && (startsWithI n ".tmp_" || startsWithI n "tmp_")

/-- `safe_name`: `sed 's#/#-#g'`, replace `/` by `-`. -/
def safe_name (s : String) : String :=
  String.mk (s.data.map (fun c => if c = '/' then '-' else c))

/-- Canonical output name `out_name="${book}.m4b"`. -/
def outName (book : String) : String := book ++ ".m4b"

/-- Temp name `tmp_path=".tmp_${tmp_stem}.m4b"` with `tmp_stem=$(safe_name book)`. -/
def tmpName (book : String) : String := ".tmp_" ++ safe_name book ++ ".m4b"

/-- `rm -f` of one named file. -/
def removeFile (files : List SFile) (n : String) : List SFile :=
  files.filter (fun f => f.name ≠ n)

/-- `[[ -f path ]]` existence test by exact name. -/
def hasFile (files : List SFile) (n : String) : Bool :=
  files.any (fun f => f.name = n)

/-- `mv -f src dst` within one directory: no-op when `src` is absent,
otherwise the target is overwritten and `src` disappears. -/
def mvFile (files : List SFile) (src dst : String) : List SFile :=
  match files.find? (fun f => f.name = src) with
  | none => files
  | some t => files.filter (fun f => f.name ≠ src ∧ f.name ≠ dst) ++ [⟨dst, t.size⟩]

/-- `detect_channels`: in dry-run, answer "2" without consulting the probe
(`DRY_RUN should never spin up helper containers`); otherwise the captured
ffprobe output (with `|| echo "2"` on failure, modelled by `none`) is
normalised: exactly "1" gives mono, anything else stereo. -/
def detect_channels (dryRun : Bool) (probe : Option String) : String :=
  if dryRun then "2"
  else
    let ch := probe.getD "2"
    if ch = "1" then "1" else "2"

/-- `resolve_channels`: `mono` forces 1, `stereo` forces 2, `match` and any
other value pass the detected value through. -/
def resolve_channels (audioMode : String) (detected : String) : String :=
  if audioMode = "mono" then "1"
  else if audioMode = "stereo" then "2"
  else detected

/-!
## Folder classification (convert loop, lines 291–336)
-/

/-- Top-level `.mp3` inventory (`mapfile … find -maxdepth 1 -iname "*.mp3"`). -/
def mp3Files (b : Book) : List SFile := b.files.filter (fun f => isMp3 f.name)

/-- Top-level `.m4a` inventory. -/
def m4aFiles (b : Book) : List SFile := b.files.filter (fun f => isM4a f.name)

/-- Top-level `.m4b` inventory of correct mode (no temp exclusion there). -/
def m4bFiles (b : Book) : List SFile := b.files.filter (fun f => isM4b f.name)

/-- The convert-mode skip test: any top-level `.m4b` that is not an
in-flight temp file (line 298). -/
def hasNonTempM4b (b : Book) : Bool :=
  b.files.any (fun f => isM4b f.name && !isTempM4b f.name)

/-- The decision taken for one book folder by the convert loop. -/
inductive Plan where
  | skipRecycle
  | skipHasM4b
  | skipEmpty
  | skipOutExists
  | convertMp3
  | convertSingleM4a
  | convertMultiM4a
deriving Repr, DecidableEq

/-- Classification of one book folder, in the exact order of the script:
`#recycle` authors are skipped; a non-temp `.m4b` skips the book (counted);
no `.mp3` and no `.m4a` silently excludes it; after the stale-temp
`rm -f`, an existing file at the canonical output path skips it with a
warning (counted); otherwise MP3s win, then one `.m4a` remuxes and more
than one merges. -/
def classifyBook (b : Book) : Plan :=
  if b.author = "#recycle" then .skipRecycle
  else if hasNonTempM4b b then .skipHasM4b
  else if (mp3Files b).length = 0 ∧ (m4aFiles b).length = 0 then .skipEmpty
  else if hasFile (removeFile b.files (tmpName b.book)) (outName b.book) then .skipOutExists
  else if (mp3Files b).length > 0 then .convertMp3
  else if (m4aFiles b).length = 1 then .convertSingleM4a
  else .convertMultiM4a

/-- Line 314: `INFO: Both MP3 and M4A found, using MP3s only` is logged
exactly when the book survives the skip checks and has both kinds. -/
def mixedNote (b : Book) : Bool :=
  !(b.author == "#recycle") && !(hasNonTempM4b b)
    && (mp3Files b).length != 0 && (m4aFiles b).length != 0

/-!
## Conversion executor (convert loop, lines 338–505)
-/

/-- Outcome of the external tool for one invocation: exit status and the
temp file it left behind (`none` = no temp file, `some sz` = temp of
`sz` bytes). -/
structure ToolOutcome where
  exitOk : Bool
  tmpResult : Option Nat
deriving Repr, DecidableEq

/-- What happened to one book in the convert loop. -/
inductive BookOutcome where
  | skippedRecycle
  | skippedHasM4b
  | skippedEmpty
  | skippedOutExists
  | createdDry
  | created
  | failedExit
  | failedMissing
  | failedSmall
deriving Repr, DecidableEq

/-- Line 323: `rm -f "${tmp_path}"` — remove a stale temp before anything
else (this happens before the dry-run check). -/
def stripStaleTemp (b : Book) : Book :=
  { b with files := removeFile b.files (tmpName b.book) }

/-- The file list after the external tool ran against the temp path. -/
def toolTempWrite (tool : ToolOutcome) (book : String) (files : List SFile) : List SFile :=
  match tool.tmpResult with
  | none => files
  | some sz => files ++ [⟨tmpName book, sz⟩]

/-- The kind of source file a convert branch consumes: `*.mp3` on the MP3
branch, `*.m4a` on the M4A branches. -/
def consumedPred (mp3Branch : Bool) (f : SFile) : Bool :=
  if mp3Branch then isMp3 f.name else isM4a f.name

/-- Lines 394–403 / 496–505: `mkdir -p _backup_files` and move every
top-level source file of the consumed kind into it, overwriting name
clashes (`mv -f`). -/
def backupSources (mp3Branch : Bool) (b : Book) : Book :=
  { b with
    files := b.files.filter (fun f => !(consumedPred mp3Branch f))
    backupDir := true
    backupFiles :=
      b.backupFiles.filter
        (fun f => !((b.files.filter (consumedPred mp3Branch)).any (fun g => g.name = f.name)))
      ++ b.files.filter (consumedPred mp3Branch) }

/-- Real-mode tail of one convert branch (lines 366–405 for MP3, 467–505
for M4A): run the tool, handle the three failure shapes, and on validated
success rename temp → canonical output and only then back the sources up.
`b1` is the book after the stale-temp removal. -/
def runToolAndFinalize (mp3Branch : Bool) (tool : ToolOutcome) (b1 : Book) : BookOutcome × Book :=
  let tmpN := tmpName b1.book
  let afterTool := toolTempWrite tool b1.book b1.files
  if !tool.exitOk then
    (.failedExit, { b1 with files := removeFile afterTool tmpN })
  else
    match tool.tmpResult with
    | none => (.failedMissing, b1)
    | some sz =>
      if sz < MIN_BYTES then
        (.failedSmall, { b1 with files := afterTool })
      else
        let b2 := { b1 with files := mvFile afterTool tmpN (outName b1.book) }
        (.created, backupSources mp3Branch b2)

/-- One book of the convert loop: classify, then either skip, log the
command in dry-run (counting it created), or run the tool for real. -/
def convertBookStep (dryRun : Bool) (tool : ToolOutcome) (b : Book) : BookOutcome × Book :=
  match classifyBook b with
  | .skipRecycle => (.skippedRecycle, b)
  | .skipHasM4b => (.skippedHasM4b, b)
  | .skipEmpty => (.skippedEmpty, b)
  | .skipOutExists => (.skippedOutExists, stripStaleTemp b)
  | .convertMp3 =>
      if dryRun then (.createdDry, stripStaleTemp b)
      else runToolAndFinalize true tool (stripStaleTemp b)
  | .convertSingleM4a =>
      if dryRun then (.createdDry, stripStaleTemp b)
      else runToolAndFinalize false tool (stripStaleTemp b)
  | .convertMultiM4a =>
      if dryRun then (.createdDry, stripStaleTemp b)
      else runToolAndFinalize false tool (stripStaleTemp b)

/-- Running totals of the convert loop. -/
structure ConvCounts where
  created : Nat
  skipped : Nat
  failed : Nat
  createdFiles : List String
  failedBooks : List String
deriving Repr, DecidableEq

/-- `${author}/${book}` (the book directory relative to the root). -/
def bookPath (b : Book) : String := b.author ++ "/" ++ b.book

/-- The counter updates of each convert-loop outcome. -/
def applyOutcome (st : ConvCounts) (b : Book) : BookOutcome → ConvCounts
  | .skippedRecycle => st
  | .skippedEmpty => st
  | .skippedHasM4b => { st with skipped := st.skipped + 1 }
  | .skippedOutExists => { st with skipped := st.skipped + 1 }
  | .createdDry =>
      { st with created := st.created + 1
                createdFiles := st.createdFiles ++ [bookPath b ++ "/" ++ outName b.book] }
  | .created =>
      { st with created := st.created + 1
                createdFiles := st.createdFiles ++ [bookPath b ++ "/" ++ outName b.book] }
  | .failedExit => { st with failed := st.failed + 1, failedBooks := st.failedBooks ++ [bookPath b] }
  | .failedMissing => { st with failed := st.failed + 1, failedBooks := st.failedBooks ++ [bookPath b] }
  | .failedSmall => { st with failed := st.failed + 1, failedBooks := st.failedBooks ++ [bookPath b] }

/-- Zeroed convert counters. -/
def initCounts : ConvCounts := ⟨0, 0, 0, [], []⟩

/-- The convert loop over the traversal order of the tree. -/
def convertLoop (dryRun : Bool) (oracle : Book → ToolOutcome) :
    List Book → ConvCounts → ConvCounts × List Book
  | [], st => (st, [])
  | b :: rest, st =>
      let r := convertBookStep dryRun (oracle b) b
      let r2 := convertLoop dryRun oracle rest (applyOutcome st b r.1)
      (r2.1, r.2 :: r2.2)

/-- A whole convert pass from zeroed counters. -/
def convertRun (dryRun : Bool) (oracle : Book → ToolOutcome) (tree : List Book) :
    ConvCounts × List Book :=
  convertLoop dryRun oracle tree initCounts

/-!
## Correct mode (lines 203–267)
-/

/-- `desired_name="${book} - ${author}.m4b"`. -/
def desiredName (b : Book) : String := b.book ++ " - " ++ b.author ++ ".m4b"

/-- What happened to one book in the correct loop. -/
inductive CorrectOutcome where
  | recycleSkip
  | skippedNone
  | skippedMulti
  | alreadyCorrect
  | renamed
deriving Repr, DecidableEq

/-- One book of the correct loop: skip `#recycle`; count zero / multiple
`.m4b` folders; leave an already canonical name alone; otherwise rename
the unique `.m4b` to `"Book - Author.m4b"` (`mv -f`, unless dry-run — the
renamed counter rises either way, line 250). -/
def correctBookStep (dryRun : Bool) (b : Book) : CorrectOutcome × Book :=
  if b.author = "#recycle" then (.recycleSkip, b)
  else
    match m4bFiles b with
    | [] => (.skippedNone, b)
    | [existing] =>
        if existing.name = desiredName b then (.alreadyCorrect, b)
        else if dryRun then (.renamed, b)
        else (.renamed, { b with files := mvFile b.files existing.name (desiredName b) })
    | _ :: _ :: _ => (.skippedMulti, b)

/-- Running totals of the correct loop. -/
structure CorrectCounts where
  renamed : Nat
  alreadyOk : Nat
  skippedNone : Nat
  skippedMulti : Nat
deriving Repr, DecidableEq

/-- The counter updates of each correct-loop outcome. -/
def applyCorrect (st : CorrectCounts) : CorrectOutcome → CorrectCounts
  | .recycleSkip => st
  | .skippedNone => { st with skippedNone := st.skippedNone + 1 }
  | .skippedMulti => { st with skippedMulti := st.skippedMulti + 1 }
  | .alreadyCorrect => { st with alreadyOk := st.alreadyOk + 1 }
  | .renamed => { st with renamed := st.renamed + 1 }

/-- Zeroed correct counters. -/
def initCorrect : CorrectCounts := ⟨0, 0, 0, 0⟩

/-- The correct loop over the traversal order of the tree. -/
def correctLoop (dryRun : Bool) : List Book → CorrectCounts → CorrectCounts × List Book
  | [], st => (st, [])
  | b :: rest, st =>
      let r := correctBookStep dryRun b
      let r2 := correctLoop dryRun rest (applyCorrect st r.1)
      (r2.1, r.2 :: r2.2)

/-- A whole correct pass from zeroed counters. -/
def correctRun (dryRun : Bool) (tree : List Book) : CorrectCounts × List Book :=
  correctLoop dryRun tree initCorrect

/-!
## Cleanup mode (lines 161–198)

`find "$ROOT" -type d -iname "_backup_files"` sweeps the whole tree —
including `#recycle` authors, which cleanup mode does not filter.
-/

/-- One book of the cleanup sweep: delete its `_backup_files` directory if
present (dry-run only counts), counting one deletion. -/
def cleanupBookStep (dryRun : Bool) (b : Book) : Nat × Book :=
  if b.backupDir then
    (1, if dryRun then b else { b with backupDir := false, backupFiles := [] })
  else (0, b)

/-- The cleanup sweep over the tree, totalling `deleted_count`. -/
def cleanupLoop (dryRun : Bool) : List Book → Nat × List Book
  | [] => (0, [])
  | b :: rest =>
      let r := cleanupBookStep dryRun b
      let r2 := cleanupLoop dryRun rest
      (r.1 + r2.1, r.2 :: r2.2)

/-!
## Summary line, setup checks, top-level dispatch (lines 54–75, 126–155)
-/

/-- The single-line machine-readable summary (`emit_summary`), wall-clock
runtime omitted. -/
structure Summary where
  mode : String
  dryRun : Bool
  success : Bool
  created : Nat
  skipped : Nat
  failed : Nat
  renamed : Nat
  deleted : Nat
  reason : Option String
deriving Repr, DecidableEq

/-- `emit_summary success runtime created skipped failed renamed deleted reason`. -/
def emit_summary (mode : String) (dryRun success : Bool)
    (created skipped failed renamed deleted : Nat) (reason : Option String) : Summary :=
  ⟨mode, dryRun, success, created, skipped, failed, renamed, deleted, reason⟩

/-- Environment of one invocation: does the root directory exist, is the
advisory lock free (the single non-blocking `flock -n 9` attempt), the
tree in traversal order, and the external-tool oracle. -/
structure RunEnv where
  rootExists : Bool
  lockFree : Bool
  tree : List Book
  oracle : Book → ToolOutcome

/-- The whole script: root check (lines 127–133), lock acquisition
(lines 136–145), then the mode dispatch — `cleanup` and `correct` have
dedicated blocks and anything else falls through to convert. -/
def m4brewRun (mode : String) (dryRun : Bool) (env : RunEnv) : Summary × List Book :=
  if !env.rootExists then
    (emit_summary mode dryRun false 0 0 1 0 0 (some "root_missing"), env.tree)
  else if !env.lockFree then
    (emit_summary mode dryRun false 0 0 1 0 0 (some "already_running"), env.tree)
  else if mode = "cleanup" then
    let r := cleanupLoop dryRun env.tree
    (emit_summary mode dryRun true 0 0 0 0 r.1 none, r.2)
  else if mode = "correct" then
    let r := correctRun dryRun env.tree
    (emit_summary mode dryRun true 0 0 0 r.1.renamed 0 none, r.2)
  else
    let r := convertRun dryRun env.oracle env.tree
    (emit_summary mode dryRun (r.1.failed == 0) r.1.created r.1.skipped r.1.failed 0 0 none, r.2)

/-!
## Cancellation (lines 147–155)

`on_cancel` only logs, emits the summary with reason `canceled`, and
exits 130; exiting closes fd 9 and releases the lock.  The trap performs
no filesystem work, so the observable folder state is whatever
inter-operation boundary the run had reached.  `convertBookTrace` lists
those boundaries for one book taken through a convert branch in real
mode, in chronological order.
-/

/-- The INT/TERM trap applied at a boundary state `s`: the summary
(reason `canceled`), the folder exactly as it was, and the lock no
longer held (`false`) because the process exited. -/
def on_cancel (mode : String) (dryRun : Bool) (s : Book) : Summary × Book × Bool :=
  (emit_summary mode dryRun false 0 0 1 0 0 (some "canceled"), s, false)

/-- All intermediate folder states of one real-mode conversion, in order:
initial, after the stale-temp `rm -f`, after the external tool wrote (or
failed to write) the temp, then per shape: the failure `rm -f`, or the
`mv -f` temp → canonical output, the `mkdir -p _backup_files`, and the
source move. -/
def convertBookTrace (tool : ToolOutcome) (b : Book) : List Book :=
  let b1 := stripStaleTemp b
  let b2 := { b1 with files := toolTempWrite tool b1.book b1.files }
  if !tool.exitOk then
    [b, b1, b2, { b1 with files := removeFile b2.files (tmpName b1.book) }]
  else
    match tool.tmpResult with
    | none => [b, b1, b2]
    | some sz =>
      if sz < MIN_BYTES then [b, b1, b2]
      else
        let b3 := { b1 with files := mvFile b2.files (tmpName b1.book) (outName b1.book) }
        let b4 := { b3 with backupDir := true }
        [b, b1, b2, b3, b4, backupSources (classifyBook b == Plan.convertMp3) b3]

/-!
## Helper lemmas: names and extensions
-/

theorem take_length_append (l1 l2 : List Char) : (l1 ++ l2).take l1.length = l1 := by
  induction l1 with
  | nil => simp
  | cons c t ih => simp [ih]

theorem lowerL_append (s t : List Char) : lowerL (s ++ t) = lowerL s ++ lowerL t := by
  simp [lowerL]

theorem lowerL_length (s : List Char) : (lowerL s).length = s.length := by
  simp [lowerL]

theorem endsWithL_append (s t u : List Char) (h : t.length = u.length) :
    endsWithL (s ++ t) u = (t == u) := by
  unfold endsWithL
  rw [List.reverse_append]
  have hl : u.length = t.reverse.length := by simp [h]
  rw [hl, take_length_append]
  by_cases he : t = u
  · subst he; simp
  · have hr : t.reverse ≠ u.reverse := by
      intro hc
      exact he (List.reverse_injective hc)
    simp [he, hr]

theorem startsWithL_append (t s u : List Char) (h : t.length = u.length) :
    startsWithL (t ++ s) u = (t == u) := by
  unfold startsWithL
  have hl : u.length = t.length := h.symm
  rw [hl, take_length_append]

theorem hasExtI_append (a e ext : String) (h : e.data.length = ext.data.length) :
    hasExtI (a ++ e) ext = (lowerL e.data == ext.data) := by
  unfold hasExtI
  rw [String.data_append, lowerL_append,
    endsWithL_append (lowerL a.data) (lowerL e.data) ext.data (by rw [lowerL_length]; exact h)]

theorem startsWithI_append (p r pat : String) (h : p.data.length = pat.data.length) :
    startsWithI (p ++ r) pat = (lowerL p.data == pat.data) := by
  unfold startsWithI
  rw [String.data_append, lowerL_append,
    startsWithL_append (lowerL p.data) (lowerL r.data) pat.data (by rw [lowerL_length]; exact h)]

theorem isMp3_ext_m4b (a : String) : isMp3 (a ++ ".m4b") = false := by
  unfold isMp3
  rw [hasExtI_append a ".m4b" ".mp3" (by decide)]
  decide

theorem isM4a_ext_m4b (a : String) : isM4a (a ++ ".m4b") = false := by
  unfold isM4a
  rw [hasExtI_append a ".m4b" ".m4a" (by decide)]
  decide

theorem isM4b_ext_m4b (a : String) : isM4b (a ++ ".m4b") = true := by
  unfold isM4b
  rw [hasExtI_append a ".m4b" ".m4b" (by decide)]
  decide

theorem tmpName_eq (book : String) :
    tmpName book = ".tmp_" ++ (safe_name book ++ ".m4b") := by
  unfold tmpName
  apply String.ext
  simp [String.data_append, List.append_assoc]

theorem isMp3_tmpName (book : String) : isMp3 (tmpName book) = false :=
  isMp3_ext_m4b _

theorem isM4a_tmpName (book : String) : isM4a (tmpName book) = false :=
  isM4a_ext_m4b _

theorem isM4b_tmpName (book : String) : isM4b (tmpName book) = true :=
  isM4b_ext_m4b _

theorem isTempM4b_tmpName (book : String) : isTempM4b (tmpName book) = true := by
  unfold isTempM4b
  rw [isM4b_tmpName]
  rw [tmpName_eq]
  rw [startsWithI_append ".tmp_" _ ".tmp_" (by decide)]
  have h1 : (lowerL ".tmp_".data == ".tmp_".data) = true := by decide
  rw [h1]
  simp

theorem isMp3_outName (book : String) : isMp3 (outName book) = false :=
  isMp3_ext_m4b _

theorem isM4a_outName (book : String) : isM4a (outName book) = false :=
  isM4a_ext_m4b _

theorem isM4b_outName (book : String) : isM4b (outName book) = true :=
  isM4b_ext_m4b _

theorem safe_name_length (s : String) : (safe_name s).data.length = s.data.length := by
  simp [safe_name]

theorem outName_ne_tmpName (book : String) : outName book ≠ tmpName book := by
  intro h
  have hlen : (outName book).data.length = (tmpName book).data.length := by rw [h]
  unfold outName tmpName at hlen
  rw [String.data_append, String.data_append, String.data_append] at hlen
  simp only [List.length_append, safe_name_length] at hlen
  have h4 : (".m4b" : String).data.length = 4 := by decide
  have h5 : (".tmp_" : String).data.length = 5 := by decide
  rw [h4, h5] at hlen
  omega

theorem isM4b_desiredName (b : Book) : isM4b (desiredName b) = true :=
  isM4b_ext_m4b _

/-!
## Helper lemmas: file lists
-/

theorem mem_removeFile_iff (f : SFile) (l : List SFile) (n : String) :
    f ∈ removeFile l n ↔ f ∈ l ∧ f.name ≠ n := by
  simp [removeFile]

theorem hasFile_iff (l : List SFile) (n : String) :
    hasFile l n = true ↔ ∃ f ∈ l, f.name = n := by
  simp [hasFile]

theorem filter_removeFile (l : List SFile) (p : SFile → Bool) (n : String)
    (h : ∀ f : SFile, f.name = n → p f = false) :
    (removeFile l n).filter p = l.filter p := by
  induction l with
  | nil => rfl
  | cons f t ih =>
    by_cases hf : f.name = n
    · have hp := h f hf
      have e1 : removeFile (f :: t) n = removeFile t n := by
        simp [removeFile, hf]
      rw [e1, ih, List.filter_cons, hp]
      simp
    · have e1 : removeFile (f :: t) n = f :: removeFile t n := by
        simp [removeFile, hf]
      rw [e1, List.filter_cons, List.filter_cons, ih]

theorem hasFile_removeFile_ne (l : List SFile) (n m : String) (h : n ≠ m) :
    hasFile (removeFile l m) n = hasFile l n := by
  by_cases h2 : hasFile l n = true
  · obtain ⟨f, hfl, hfn⟩ := (hasFile_iff l n).mp h2
    have hfm : f.name ≠ m := by rw [hfn]; exact h
    have : hasFile (removeFile l m) n = true :=
      (hasFile_iff _ n).mpr ⟨f, (mem_removeFile_iff f l m).mpr ⟨hfl, hfm⟩, hfn⟩
    rw [this, h2]
  · have h3 : hasFile (removeFile l m) n ≠ true := by
      intro hc
      obtain ⟨f, hfl, hfn⟩ := (hasFile_iff _ n).mp hc
      exact h2 ((hasFile_iff l n).mpr ⟨f, ((mem_removeFile_iff f l m).mp hfl).1, hfn⟩)
    have h2f : hasFile l n = false := by
      cases hfl : hasFile l n
      · rfl
      · exact absurd hfl h2
    have h3f : hasFile (removeFile l m) n = false := by
      cases hfl : hasFile (removeFile l m) n
      · rfl
      · exact absurd hfl h3
    rw [h2f, h3f]

theorem hasFile_append (l1 l2 : List SFile) (n : String) :
    hasFile (l1 ++ l2) n = (hasFile l1 n || hasFile l2 n) := by
  simp [hasFile]

theorem mp3Files_stripStaleTemp (b : Book) : mp3Files (stripStaleTemp b) = mp3Files b := by
  unfold mp3Files stripStaleTemp
  exact filter_removeFile _ _ _ (fun f hf => by rw [hf]; exact isMp3_tmpName b.book)

theorem m4aFiles_stripStaleTemp (b : Book) : m4aFiles (stripStaleTemp b) = m4aFiles b := by
  unfold m4aFiles stripStaleTemp
  exact filter_removeFile _ _ _ (fun f hf => by rw [hf]; exact isM4a_tmpName b.book)

/-!
## Helper lemmas: classification and the convert step
-/

theorem classify_convert_facts (b : Book)
    (hc : classifyBook b = Plan.convertMp3 ∨ classifyBook b = Plan.convertSingleM4a ∨
      classifyBook b = Plan.convertMultiM4a) :
    b.author ≠ "#recycle" ∧ hasNonTempM4b b = false ∧
    ¬((mp3Files b).length = 0 ∧ (m4aFiles b).length = 0) ∧
    hasFile (removeFile b.files (tmpName b.book)) (outName b.book) = false := by
  unfold classifyBook at hc
  split_ifs at hc with h1 h2 h3 h4
  all_goals simp_all [Bool.not_eq_true]

theorem classify_mp3_facts (b : Book) (hc : classifyBook b = Plan.convertMp3) :
    (mp3Files b).length ≠ 0 := by
  unfold classifyBook at hc
  split_ifs at hc with h1 h2 h3 h4 h5
  all_goals first
  | exact absurd hc (by decide)
  | omega

theorem classify_single_facts (b : Book) (hc : classifyBook b = Plan.convertSingleM4a) :
    (mp3Files b).length = 0 ∧ (m4aFiles b).length = 1 := by
  unfold classifyBook at hc
  split_ifs at hc with h1 h2 h3 h4 h5 h6
  all_goals first
  | exact absurd hc (by decide)
  | (constructor <;> omega)

theorem classify_multi_facts (b : Book) (hc : classifyBook b = Plan.convertMultiM4a) :
    (mp3Files b).length = 0 ∧ 2 ≤ (m4aFiles b).length := by
  unfold classifyBook at hc
  split_ifs at hc with h1 h2 h3 h4 h5 h6
  have hm : (mp3Files b).length = 0 := by omega
  refine ⟨hm, ?_⟩
  have hz := not_and.mp h3 hm
  omega

theorem convertBookStep_real (b : Book) (tool : ToolOutcome)
    (hc : classifyBook b = Plan.convertMp3 ∨ classifyBook b = Plan.convertSingleM4a ∨
      classifyBook b = Plan.convertMultiM4a) :
    convertBookStep false tool b =
      runToolAndFinalize (classifyBook b == Plan.convertMp3) tool (stripStaleTemp b) := by
  rcases hc with h | h | h
  · simp only [convertBookStep, h]
    rw [show (Plan.convertMp3 == Plan.convertMp3) = true from by decide]
    simp
  · simp only [convertBookStep, h]
    rw [show (Plan.convertSingleM4a == Plan.convertMp3) = false from by decide]
    simp
  · simp only [convertBookStep, h]
    rw [show (Plan.convertMultiM4a == Plan.convertMp3) = false from by decide]
    simp

theorem convertBookStep_dry (b : Book)
    (hc : classifyBook b = Plan.convertMp3 ∨ classifyBook b = Plan.convertSingleM4a ∨
      classifyBook b = Plan.convertMultiM4a) (tool : ToolOutcome) :
    convertBookStep true tool b = (.createdDry, stripStaleTemp b) := by
  rcases hc with h | h | h <;> simp [convertBookStep, h]

/-!
## Helper lemmas: loops
-/

theorem convertLoop_books (dry : Bool) (oracle : Book → ToolOutcome) (tree : List Book)
    (st : ConvCounts) :
    (convertLoop dry oracle tree st).2 =
      tree.map (fun b => (convertBookStep dry (oracle b) b).2) := by
  induction tree generalizing st with
  | nil => rfl
  | cons b rest ih => simp [convertLoop, ih]

theorem applyOutcome_created_const (st : ConvCounts) (b : Book) (o : BookOutcome)
    (h1 : o ≠ .created) (h2 : o ≠ .createdDry) :
    (applyOutcome st b o).created = st.created := by
  cases o <;> simp_all [applyOutcome]

theorem convertLoop_created_const (dry : Bool) (oracle : Book → ToolOutcome) (tree : List Book)
    (st : ConvCounts)
    (h : ∀ b ∈ tree, (convertBookStep dry (oracle b) b).1 ≠ .created ∧
      (convertBookStep dry (oracle b) b).1 ≠ .createdDry) :
    (convertLoop dry oracle tree st).1.created = st.created := by
  induction tree generalizing st with
  | nil => rfl
  | cons b rest ih =>
    have hb := h b (by simp)
    have hr : ∀ x ∈ rest, (convertBookStep dry (oracle x) x).1 ≠ .created ∧
        (convertBookStep dry (oracle x) x).1 ≠ .createdDry :=
      fun x hx => h x (by simp [hx])
    simp only [convertLoop]
    rw [ih _ hr, applyOutcome_created_const _ _ _ hb.1 hb.2]

theorem correctLoop_books (dry : Bool) (tree : List Book) (st : CorrectCounts) :
    (correctLoop dry tree st).2 = tree.map (fun b => (correctBookStep dry b).2) := by
  induction tree generalizing st with
  | nil => rfl
  | cons b rest ih => simp [correctLoop, ih]

theorem applyCorrect_renamed_const (st : CorrectCounts) (o : CorrectOutcome)
    (h : o ≠ .renamed) : (applyCorrect st o).renamed = st.renamed := by
  cases o <;> simp_all [applyCorrect]

theorem correctLoop_renamed_const (dry : Bool) (tree : List Book) (st : CorrectCounts)
    (h : ∀ b ∈ tree, (correctBookStep dry b).1 ≠ .renamed) :
    (correctLoop dry tree st).1.renamed = st.renamed := by
  induction tree generalizing st with
  | nil => rfl
  | cons b rest ih =>
    have hb := h b (by simp)
    have hr : ∀ x ∈ rest, (correctBookStep dry x).1 ≠ .renamed :=
      fun x hx => h x (by simp [hx])
    simp only [correctLoop]
    rw [ih _ hr, applyCorrect_renamed_const _ _ hb]

/-!
## C8: channel policy resolver and detection
-/

/-- C8: the channel policy resolver returns "1" for policy `mono`, "2"
for `stereo`, and the detected value for `match` or any other value;
detection in real mode returns "1" exactly when the probe reports "1"
and "2" otherwise, probe failure included; in dry-run mode detection
returns "2" for every probe value (no helper process is consulted). -/
theorem C8_channel_policy (am det : String) (probe : Option String) :
    resolve_channels "mono" det = "1"
  ∧ resolve_channels "stereo" det = "2"
  ∧ (am ≠ "mono" → am ≠ "stereo" → resolve_channels am det = det)
  ∧ (∀ p : Option String, detect_channels true p = "2")
  ∧ (detect_channels false probe = "1" ↔ probe = some "1")
  ∧ (probe ≠ some "1" → detect_channels false probe = "2") := by
  refine ⟨?_, ?_, ?_, fun p => rfl, ?_, ?_⟩
  · unfold resolve_channels
    rw [if_pos rfl]
  · unfold resolve_channels
    rw [if_neg (by decide), if_pos rfl]
  · intro h1 h2
    unfold resolve_channels
    rw [if_neg h1, if_neg h2]
  · unfold detect_channels
    cases probe with
    | none => simp
    | some s =>
      by_cases hs : s = "1"
      · subst hs; simp
      · simp [hs]
  · intro hp
    unfold detect_channels
    cases probe with
    | none => simp
    | some s =>
      have hs : s ≠ "1" := fun hc => hp (by rw [hc])
      simp [hs]

/-- C8 witness: the theorem applied at policy "match", detected "7" and a
failing probe. -/
theorem C8_channel_policy_witness :
    resolve_channels "match" "7" = "7" ∧ detect_channels false none = "2" :=
  ⟨(C8_channel_policy "match" "7" none).2.2.1 (by decide) (by decide),
   (C8_channel_policy "match" "7" none).2.2.2.2.2 (by simp)⟩

/-!
## C9: setup errors
-/

/-- C9: a missing root aborts every mode with a failure summary whose
reason is `root_missing`, and a held lock aborts with reason
`already_running`; in both cases the tree is untouched (no book is
processed). -/
theorem C9_setup_errors (mode : String) (dry : Bool) (env : RunEnv) :
    (env.rootExists = false →
      m4brewRun mode dry env =
        (emit_summary mode dry false 0 0 1 0 0 (some "root_missing"), env.tree))
  ∧ (env.rootExists = true → env.lockFree = false →
      m4brewRun mode dry env =
        (emit_summary mode dry false 0 0 1 0 0 (some "already_running"), env.tree)) := by
  constructor
  · intro h
    unfold m4brewRun
    rw [h]
    simp
  · intro h1 h2
    unfold m4brewRun
    rw [h1, h2]
    simp

/-- C9 witness: concrete environments with a missing root and with a held
lock, in correct mode and in convert mode. -/
theorem C9_setup_errors_witness :
    m4brewRun "correct" false ⟨false, true, [], fun _ => ⟨true, none⟩⟩ =
      (emit_summary "correct" false false 0 0 1 0 0 (some "root_missing"), [])
  ∧ m4brewRun "convert" true ⟨true, false, [], fun _ => ⟨true, none⟩⟩ =
      (emit_summary "convert" true false 0 0 1 0 0 (some "already_running"), []) :=
  ⟨(C9_setup_errors "correct" false ⟨false, true, [], fun _ => ⟨true, none⟩⟩).1 rfl,
   (C9_setup_errors "convert" true ⟨true, false, [], fun _ => ⟨true, none⟩⟩).2 rfl rfl⟩

/-!
## C10: the `#recycle` exclusion
-/

/-- A book folder under a `#recycle` author with an existing
`_backup_files` directory. -/
def recycleBook : Book :=
  ⟨"#recycle", "Old", [⟨"part.mp3", 9000000⟩], true, [⟨"old.mp3", 5⟩]⟩

/-- C10 counterexample: cleanup mode does not exclude `#recycle` — a real
cleanup run deletes the `_backup_files` directory of a book beneath a
`#recycle` author, so "nothing beneath it is deleted ... by any run"
fails. -/
theorem C10_counterexample :
    recycleBook.author = "#recycle"
  ∧ recycleBook.backupDir = true
  ∧ (cleanupLoop false [recycleBook]).2 =
      [⟨"#recycle", "Old", [⟨"part.mp3", 9000000⟩], false, []⟩]
  ∧ (cleanupLoop false [recycleBook]).2 ≠ [recycleBook]
  ∧ (cleanupLoop false [recycleBook]).1 = 1 := by
  decide

/-- C10 amended: in convert and correct modes a `#recycle` author is
always excluded — the book is untouched and no counter moves — but the
cleanup sweep deletes `_backup_files` directories beneath `#recycle`
like anywhere else. -/
theorem C10_recycle_exclusion (b : Book) (h : b.author = "#recycle") (dry : Bool)
    (tool : ToolOutcome) (st : ConvCounts) (stc : CorrectCounts) :
    convertBookStep dry tool b = (.skippedRecycle, b)
  ∧ applyOutcome st b .skippedRecycle = st
  ∧ correctBookStep dry b = (.recycleSkip, b)
  ∧ applyCorrect stc .recycleSkip = stc
  ∧ (b.backupDir = true →
      cleanupBookStep false b = (1, { b with backupDir := false, backupFiles := [] })) := by
  refine ⟨?_, rfl, ?_, rfl, ?_⟩
  · have hc : classifyBook b = .skipRecycle := by
      unfold classifyBook
      rw [if_pos h]
    simp [convertBookStep, hc]
  · unfold correctBookStep
    rw [if_pos h]
  · intro hb
    unfold cleanupBookStep
    rw [hb]
    simp

/-- C10 witness: the amended theorem applied to the concrete `#recycle`
book. -/
theorem C10_recycle_exclusion_witness :
    convertBookStep false ⟨true, some 9000000⟩ recycleBook = (.skippedRecycle, recycleBook)
  ∧ correctBookStep false recycleBook = (.recycleSkip, recycleBook)
  ∧ cleanupBookStep false recycleBook =
      (1, { recycleBook with backupDir := false, backupFiles := [] }) :=
  ⟨(C10_recycle_exclusion recycleBook rfl false ⟨true, some 9000000⟩ initCounts initCorrect).1,
   (C10_recycle_exclusion recycleBook rfl false ⟨true, some 9000000⟩ initCounts initCorrect).2.2.1,
   (C10_recycle_exclusion recycleBook rfl false ⟨true, some 9000000⟩ initCounts initCorrect).2.2.2.2 rfl⟩

/-!
## C1: dry run and the stale-temp removal
-/

/-- A book folder holding one MP3 and a stale temp file from a previous
crashed or canceled attempt. -/
def staleDryBook : Book :=
  ⟨"Author", "Book", [⟨"01.mp3", 1000⟩, ⟨".tmp_Book.m4b", 4096⟩], false, []⟩

/-- C1 evidence: the `rm -f "${tmp_path}"` of line 323 runs before the
dry-run check of line 359, so a dry-run convert pass deletes the stale
temp file `.tmp_Book.m4b` from the book folder — the listing is not
byte-for-byte identical. -/
theorem C1_dry_run_deletes_stale_temp :
    hasFile staleDryBook.files (tmpName staleDryBook.book) = true
  ∧ (convertBookStep true ⟨true, none⟩ staleDryBook).1 = .createdDry
  ∧ (convertBookStep true ⟨true, none⟩ staleDryBook).2.files = [⟨"01.mp3", 1000⟩]
  ∧ (convertBookStep true ⟨true, none⟩ staleDryBook).2 ≠ staleDryBook := by
  decide

/-!
## C2: convert-mode classification
-/

/-- A book whose name begins with `tmp_`: its canonical output name
matches the temp-file exclusion patterns, so an `.m4b` already sitting at
the canonical path escapes the line-298 detection. -/
def tmpNamedBook : Book :=
  ⟨"Author", "tmp_x", [⟨"tmp_x.m4b", 9000000⟩, ⟨"01.mp3", 1000⟩], false, []⟩

/-- C2 counterexample: a folder with an `.mp3` and no detectable non-temp
`.m4b` does not take the MP3 branch — the line-325 canonical-output check
skips it instead, so the claimed decision order is incomplete. -/
theorem C2_counterexample :
    tmpNamedBook.author ≠ "#recycle"
  ∧ hasNonTempM4b tmpNamedBook = false
  ∧ (mp3Files tmpNamedBook).length ≠ 0
  ∧ classifyBook tmpNamedBook ≠ Plan.convertMp3
  ∧ classifyBook tmpNamedBook = Plan.skipOutExists := by
  decide

/-- C2 amended: the classification order with the canonical-output guard:
skip-and-count on a non-temp `.m4b`; silent exclusion when no `.mp3` and
no `.m4a` exist; otherwise a file already at the canonical output path
skips the book with a warning (counted skipped); otherwise MP3s win (with
the informational note when M4As are also present and ignored), then one
`.m4a` remuxes and two or more merge. -/
theorem C2_classification (b : Book) (h : b.author ≠ "#recycle") (dry : Bool)
    (tool : ToolOutcome) (st : ConvCounts) :
    (hasNonTempM4b b = true →
        classifyBook b = .skipHasM4b
      ∧ convertBookStep dry tool b = (.skippedHasM4b, b)
      ∧ applyOutcome st b .skippedHasM4b = { st with skipped := st.skipped + 1 })
  ∧ (hasNonTempM4b b = false → (mp3Files b).length = 0 → (m4aFiles b).length = 0 →
        classifyBook b = .skipEmpty
      ∧ convertBookStep dry tool b = (.skippedEmpty, b)
      ∧ applyOutcome st b .skippedEmpty = st)
  ∧ (hasNonTempM4b b = false → ¬((mp3Files b).length = 0 ∧ (m4aFiles b).length = 0) →
      hasFile (removeFile b.files (tmpName b.book)) (outName b.book) = true →
        classifyBook b = .skipOutExists
      ∧ applyOutcome st b .skippedOutExists = { st with skipped := st.skipped + 1 })
  ∧ (hasNonTempM4b b = false →
      hasFile (removeFile b.files (tmpName b.book)) (outName b.book) = false →
      (mp3Files b).length ≠ 0 →
        classifyBook b = .convertMp3
      ∧ ((m4aFiles b).length ≠ 0 → mixedNote b = true))
  ∧ (hasNonTempM4b b = false →
      hasFile (removeFile b.files (tmpName b.book)) (outName b.book) = false →
      (mp3Files b).length = 0 → (m4aFiles b).length = 1 →
        classifyBook b = .convertSingleM4a)
  ∧ (hasNonTempM4b b = false →
      hasFile (removeFile b.files (tmpName b.book)) (outName b.book) = false →
      (mp3Files b).length = 0 → 2 ≤ (m4aFiles b).length →
        classifyBook b = .convertMultiM4a) := by
  refine ⟨?_, ?_, ?_, ?_, ?_, ?_⟩
  · intro hm
    have hc : classifyBook b = .skipHasM4b := by
      unfold classifyBook
      rw [if_neg h, if_pos hm]
    exact ⟨hc, by simp [convertBookStep, hc], rfl⟩
  · intro hm hp ha
    have hc : classifyBook b = .skipEmpty := by
      unfold classifyBook
      rw [if_neg h, if_neg (by simp [hm]), if_pos ⟨hp, ha⟩]
    exact ⟨hc, by simp [convertBookStep, hc], rfl⟩
  · intro hm hne hout
    have hc : classifyBook b = .skipOutExists := by
      unfold classifyBook
      rw [if_neg h, if_neg (by simp [hm]), if_neg hne, if_pos hout]
    exact ⟨hc, rfl⟩
  · intro hm hout hp
    have hc : classifyBook b = .convertMp3 := by
      unfold classifyBook
      rw [if_neg h, if_neg (by simp [hm]),
        if_neg (by intro hc2; exact hp hc2.1), if_neg (by simp [hout]),
        if_pos (Nat.pos_of_ne_zero hp)]
    refine ⟨hc, fun ha => ?_⟩
    unfold mixedNote
    rw [hm]
    simp [h, hp, ha]
  · intro hm hout hp ha
    have hne : ¬((mp3Files b).length = 0 ∧ (m4aFiles b).length = 0) := by
      intro hc2
      rw [ha] at hc2
      exact absurd hc2.2 (by decide)
    unfold classifyBook
    rw [if_neg h, if_neg (by simp [hm]), if_neg hne, if_neg (by simp [hout]),
      if_neg (by omega), if_pos ha]
  · intro hm hout hp ha
    have hne : ¬((mp3Files b).length = 0 ∧ (m4aFiles b).length = 0) := by
      intro hc2
      omega
    unfold classifyBook
    rw [if_neg h, if_neg (by simp [hm]), if_neg hne, if_neg (by simp [hout]),
      if_neg (by omega), if_neg (by omega)]

/-- C2 witness: the amended classification applied to concrete folders:
one with a non-temp `.m4b`, one with only MP3s, one with a single M4A and
one with three M4As. -/
theorem C2_classification_witness :
    classifyBook ⟨"A", "B", [⟨"done.m4b", 9000000⟩, ⟨"01.mp3", 7⟩], false, []⟩ = .skipHasM4b
  ∧ classifyBook ⟨"A", "B", [⟨"01.mp3", 7⟩, ⟨"02.M4A", 8⟩], false, []⟩ = .convertMp3
  ∧ mixedNote ⟨"A", "B", [⟨"01.mp3", 7⟩, ⟨"02.M4A", 8⟩], false, []⟩ = true
  ∧ classifyBook ⟨"A", "B", [⟨"part.m4a", 7⟩], false, []⟩ = .convertSingleM4a
  ∧ classifyBook ⟨"A", "B", [⟨"1.m4a", 7⟩, ⟨"2.m4a", 8⟩, ⟨"3.m4a", 9⟩], false, []⟩ =
      .convertMultiM4a :=
  ⟨((C2_classification ⟨"A", "B", [⟨"done.m4b", 9000000⟩, ⟨"01.mp3", 7⟩], false, []⟩
      (by decide) false ⟨true, none⟩ initCounts).1 (by decide)).1,
   ((C2_classification ⟨"A", "B", [⟨"01.mp3", 7⟩, ⟨"02.M4A", 8⟩], false, []⟩
      (by decide) false ⟨true, none⟩ initCounts).2.2.2.1 (by decide) (by decide) (by decide)).1,
   ((C2_classification ⟨"A", "B", [⟨"01.mp3", 7⟩, ⟨"02.M4A", 8⟩], false, []⟩
      (by decide) false ⟨true, none⟩ initCounts).2.2.2.1 (by decide) (by decide) (by decide)).2
      (by decide),
   (C2_classification ⟨"A", "B", [⟨"part.m4a", 7⟩], false, []⟩
      (by decide) false ⟨true, none⟩ initCounts).2.2.2.2.1 (by decide) (by decide) (by decide)
      (by decide),
   (C2_classification ⟨"A", "B", [⟨"1.m4a", 7⟩, ⟨"2.m4a", 8⟩, ⟨"3.m4a", 9⟩], false, []⟩
      (by decide) false ⟨true, none⟩ initCounts).2.2.2.2.2 (by decide) (by decide) (by decide)
      (by decide)⟩

/-!
## C3 and C4: executor helpers
-/

theorem removeFile_append (l1 l2 : List SFile) (n : String) :
    removeFile (l1 ++ l2) n = removeFile l1 n ++ removeFile l2 n := by
  simp [removeFile]

theorem removeFile_singleton_self (n : String) (sz : Nat) :
    removeFile [⟨n, sz⟩] n = [] := by
  simp [removeFile]

theorem filter_filter_of_imp (l : List SFile) (p q : SFile → Bool)
    (h : ∀ f : SFile, p f = true → q f = true) :
    (l.filter q).filter p = l.filter p := by
  induction l with
  | nil => rfl
  | cons f t ih =>
    by_cases hq : q f = true
    · rw [List.filter_cons, List.filter_cons, if_pos hq, List.filter_cons, ih]
    · have hp : p f = false := by
        cases hpf : p f
        · rfl
        · exact absurd (h f hpf) hq
      rw [List.filter_cons, List.filter_cons, if_neg hq, ih, hp]
      simp

theorem removeFile_idem (l : List SFile) (n : String) :
    removeFile (removeFile l n) n = removeFile l n :=
  filter_filter_of_imp l _ _ (fun _ h => h)

theorem find?_append_of_none {p : SFile → Bool} (l1 l2 : List SFile)
    (h : l1.find? p = none) : (l1 ++ l2).find? p = l2.find? p := by
  induction l1 with
  | nil => rfl
  | cons f t ih =>
    rw [List.find?_cons] at h
    rw [List.cons_append, List.find?_cons]
    cases hp : p f with
    | true => rw [hp] at h; exact absurd h (by simp)
    | false =>
      rw [hp] at h
      simp only [] at h ⊢
      exact ih h

theorem find?_removeFile_self (l : List SFile) (n : String) :
    (removeFile l n).find? (fun f => f.name = n) = none := by
  rw [List.find?_eq_none]
  intro f hf
  have := (mem_removeFile_iff f l n).mp hf
  simp [this.2]

theorem runToolAndFinalize_exitFalse (br : Bool) (tool : ToolOutcome) (b1 : Book)
    (hex : tool.exitOk = false) :
    runToolAndFinalize br tool b1 =
      (.failedExit,
        { b1 with files := removeFile (toolTempWrite tool b1.book b1.files) (tmpName b1.book) }) := by
  unfold runToolAndFinalize
  rw [hex]
  simp

theorem runToolAndFinalize_missing (br : Bool) (tool : ToolOutcome) (b1 : Book)
    (hok : tool.exitOk = true) (htr : tool.tmpResult = none) :
    runToolAndFinalize br tool b1 = (.failedMissing, b1) := by
  unfold runToolAndFinalize
  rw [hok, htr]
  simp

theorem runToolAndFinalize_small (br : Bool) (tool : ToolOutcome) (b1 : Book) (sz : Nat)
    (hok : tool.exitOk = true) (htr : tool.tmpResult = some sz) (hsz : sz < MIN_BYTES) :
    runToolAndFinalize br tool b1 =
      (.failedSmall, { b1 with files := toolTempWrite tool b1.book b1.files }) := by
  unfold runToolAndFinalize
  rw [hok, htr]
  simp [hsz]

theorem runToolAndFinalize_success (br : Bool) (tool : ToolOutcome) (b1 : Book) (sz : Nat)
    (hok : tool.exitOk = true) (htr : tool.tmpResult = some sz) (hsz : MIN_BYTES ≤ sz) :
    runToolAndFinalize br tool b1 =
      (.created,
        backupSources br
          { b1 with files := mvFile (toolTempWrite tool b1.book b1.files)
                      (tmpName b1.book) (outName b1.book) }) := by
  unfold runToolAndFinalize
  rw [hok, htr]
  simp [Nat.not_lt.mpr hsz]

theorem removeFile_toolTempWrite (tool : ToolOutcome) (book : String) (l : List SFile) :
    removeFile (toolTempWrite tool book (removeFile l (tmpName book))) (tmpName book) =
      removeFile l (tmpName book) := by
  unfold toolTempWrite
  cases htr : tool.tmpResult with
  | none => exact removeFile_idem l (tmpName book)
  | some sz =>
    rw [removeFile_append, removeFile_idem, removeFile_singleton_self]
    simp

theorem mp3Files_files_eq (b : Book) (l : List SFile)
    (h : l.filter (fun f => isMp3 f.name) = mp3Files b) :
    mp3Files { b with files := l } = mp3Files b := by
  unfold mp3Files at *
  exact h

theorem m4aFiles_files_eq (b : Book) (l : List SFile)
    (h : l.filter (fun f => isM4a f.name) = m4aFiles b) :
    m4aFiles { b with files := l } = m4aFiles b := by
  unfold m4aFiles at *
  exact h

theorem filter_mp3_removeFile_tmp (b : Book) :
    (removeFile b.files (tmpName b.book)).filter (fun f => isMp3 f.name) = mp3Files b :=
  filter_removeFile _ _ _ (fun f hf => by rw [hf]; exact isMp3_tmpName b.book)

theorem filter_m4a_removeFile_tmp (b : Book) :
    (removeFile b.files (tmpName b.book)).filter (fun f => isM4a f.name) = m4aFiles b :=
  filter_removeFile _ _ _ (fun f hf => by rw [hf]; exact isM4a_tmpName b.book)

/-!
## C3: per-book failure handling and isolation
-/

/-- C3: in real mode, each failure shape is handled per the claim — a
non-zero tool exit removes the partial temp (the folder keeps exactly its
non-temp files), a missing temp after reported success fails with nothing
added, an undersized temp (< 5 MiB) fails with the temp deliberately kept
and the sources and backups untouched; every failure adds the book to the
failed count and the failed list; and the loop's processing of the other
books is a per-book map unaffected by this book's outcome. -/
theorem C3_failure_isolation (b : Book) (tool : ToolOutcome)
    (hc : classifyBook b = Plan.convertMp3 ∨ classifyBook b = Plan.convertSingleM4a ∨
      classifyBook b = Plan.convertMultiM4a) :
    (tool.exitOk = false →
        (convertBookStep false tool b).1 = .failedExit
      ∧ (convertBookStep false tool b).2.files = removeFile b.files (tmpName b.book)
      ∧ (convertBookStep false tool b).2.backupFiles = b.backupFiles
      ∧ (convertBookStep false tool b).2.backupDir = b.backupDir)
  ∧ (tool.exitOk = true → tool.tmpResult = none →
        (convertBookStep false tool b).1 = .failedMissing
      ∧ (convertBookStep false tool b).2.files = removeFile b.files (tmpName b.book)
      ∧ (convertBookStep false tool b).2.backupFiles = b.backupFiles
      ∧ (convertBookStep false tool b).2.backupDir = b.backupDir)
  ∧ (∀ sz : Nat, tool.exitOk = true → tool.tmpResult = some sz → sz < MIN_BYTES →
        (convertBookStep false tool b).1 = .failedSmall
      ∧ (convertBookStep false tool b).2.files =
          removeFile b.files (tmpName b.book) ++ [⟨tmpName b.book, sz⟩]
      ∧ hasFile (convertBookStep false tool b).2.files (tmpName b.book) = true
      ∧ (convertBookStep false tool b).2.backupFiles = b.backupFiles
      ∧ (convertBookStep false tool b).2.backupDir = b.backupDir
      ∧ mp3Files (convertBookStep false tool b).2 = mp3Files b
      ∧ m4aFiles (convertBookStep false tool b).2 = m4aFiles b)
  ∧ (∀ st : ConvCounts,
      ((convertBookStep false tool b).1 = .failedExit ∨
       (convertBookStep false tool b).1 = .failedMissing ∨
       (convertBookStep false tool b).1 = .failedSmall) →
      applyOutcome st b (convertBookStep false tool b).1 =
        { st with failed := st.failed + 1, failedBooks := st.failedBooks ++ [bookPath b] })
  ∧ (∀ (dry : Bool) (oracle : Book → ToolOutcome) (rest : List Book) (st : ConvCounts),
      (convertLoop dry oracle (b :: rest) st).2 =
        (convertBookStep dry (oracle b) b).2 ::
          rest.map (fun x => (convertBookStep dry (oracle x) x).2)) := by
  have hstep := convertBookStep_real b tool hc
  refine ⟨?_, ?_, ?_, ?_, ?_⟩
  · intro hex
    rw [hstep, runToolAndFinalize_exitFalse _ _ _ hex]
    refine ⟨rfl, ?_, rfl, rfl⟩
    exact removeFile_toolTempWrite tool b.book b.files
  · intro hok htr
    rw [hstep, runToolAndFinalize_missing _ _ _ hok htr]
    exact ⟨rfl, rfl, rfl, rfl⟩
  · intro sz hok htr hsz
    rw [hstep, runToolAndFinalize_small _ _ _ sz hok htr hsz]
    have hfiles : toolTempWrite tool (stripStaleTemp b).book (stripStaleTemp b).files =
        removeFile b.files (tmpName b.book) ++ [⟨tmpName b.book, sz⟩] := by
      unfold toolTempWrite
      rw [htr]
      rfl
    refine ⟨rfl, hfiles, ?_, rfl, rfl, ?_, ?_⟩
    · show hasFile (toolTempWrite tool (stripStaleTemp b).book (stripStaleTemp b).files)
        (tmpName b.book) = true
      rw [hfiles, hasFile_append]
      have h1 : hasFile [(⟨tmpName b.book, sz⟩ : SFile)] (tmpName b.book) = true := by
        simp [hasFile]
      rw [h1]
      simp
    · exact mp3Files_files_eq b _ (by
        rw [hfiles, List.filter_append, filter_mp3_removeFile_tmp]
        simp [isMp3_tmpName])
    · exact m4aFiles_files_eq b _ (by
        rw [hfiles, List.filter_append, filter_m4a_removeFile_tmp]
        simp [isM4a_tmpName])
  · intro st ho
    rcases ho with h | h | h <;> rw [h] <;> rfl
  · intro dry oracle rest st
    rw [convertLoop_books]
    simp

/-- C3 witness: a failing tool on a concrete MP3 book: the book is marked
failed, its backups are untouched, and the loop still processes the rest. -/
theorem C3_failure_isolation_witness :
    (convertBookStep false ⟨false, some 100⟩
        ⟨"A", "B", [⟨"01.mp3", 7⟩], false, []⟩).1 = .failedExit
  ∧ (convertBookStep false ⟨false, some 100⟩
        ⟨"A", "B", [⟨"01.mp3", 7⟩], false, []⟩).2.backupFiles = [] :=
  ⟨((C3_failure_isolation ⟨"A", "B", [⟨"01.mp3", 7⟩], false, []⟩ ⟨false, some 100⟩
      (Or.inl (by decide))).1 rfl).1,
   ((C3_failure_isolation ⟨"A", "B", [⟨"01.mp3", 7⟩], false, []⟩ ⟨false, some 100⟩
      (Or.inl (by decide))).1 rfl).2.2.1⟩


/-!
## C4: validated success — rename, then backup
-/

theorem consumedPred_true (f : SFile) : consumedPred true f = isMp3 f.name := rfl

theorem consumedPred_false (f : SFile) : consumedPred false f = isM4a f.name := rfl

theorem backupSources_backupDir (br : Bool) (b : Book) :
    (backupSources br b).backupDir = true := rfl

theorem backupSources_files (br : Bool) (b : Book) :
    (backupSources br b).files = b.files.filter (fun f => !(consumedPred br f)) := rfl

theorem backupSources_backupFiles (br : Bool) (b : Book) :
    (backupSources br b).backupFiles =
      b.backupFiles.filter
        (fun f => !((b.files.filter (consumedPred br)).any (fun g => g.name = f.name)))
      ++ b.files.filter (consumedPred br) := rfl

theorem mvFile_temp_to_out (b : Book) (sz : Nat) :
    mvFile (removeFile b.files (tmpName b.book) ++ [(⟨tmpName b.book, sz⟩ : SFile)])
      (tmpName b.book) (outName b.book) =
    (removeFile b.files (tmpName b.book) ++ [(⟨tmpName b.book, sz⟩ : SFile)]).filter
        (fun f => f.name ≠ tmpName b.book ∧ f.name ≠ outName b.book)
      ++ [(⟨outName b.book, sz⟩ : SFile)] := by
  have hfind : List.find? (fun f => decide (f.name = tmpName b.book))
      (removeFile b.files (tmpName b.book) ++ [(⟨tmpName b.book, sz⟩ : SFile)]) =
      some (⟨tmpName b.book, sz⟩ : SFile) := by
    rw [find?_append_of_none _ _ (find?_removeFile_self b.files (tmpName b.book))]
    simp [List.find?]
  unfold mvFile
  rw [hfind]

theorem filter_mvFile_temp_to_out (b : Book) (sz : Nat) (pIs : String → Bool)
    (h1 : pIs (tmpName b.book) = false) (h2 : pIs (outName b.book) = false) :
    (mvFile (removeFile b.files (tmpName b.book) ++ [(⟨tmpName b.book, sz⟩ : SFile)])
        (tmpName b.book) (outName b.book)).filter (fun f => pIs f.name) =
      b.files.filter (fun f => pIs f.name) := by
  rw [mvFile_temp_to_out, List.filter_append, List.filter_append]
  have hs1 : ([(⟨tmpName b.book, sz⟩ : SFile)]).filter
      (fun f => decide (f.name ≠ tmpName b.book ∧ f.name ≠ outName b.book)) = [] := by
    simp
  have hs2 : ([(⟨outName b.book, sz⟩ : SFile)]).filter (fun f => pIs f.name) = [] := by
    simp [h2]
  rw [hs1, List.append_nil, hs2, List.append_nil]
  have hq : ∀ f : SFile, pIs f.name = true →
      decide (f.name ≠ tmpName b.book ∧ f.name ≠ outName b.book) = true := by
    intro f hf
    have ht : f.name ≠ tmpName b.book := by
      intro hn
      rw [hn, h1] at hf
      exact absurd hf (by decide)
    have ho : f.name ≠ outName b.book := by
      intro hn
      rw [hn, h2] at hf
      exact absurd hf (by decide)
    simp [ht, ho]
  rw [filter_filter_of_imp _ _ _ hq]
  exact filter_removeFile _ _ _ (fun f hf => by rw [hf]; exact h1)

theorem mp3Files_after_failure (t2 : ToolOutcome) (b : Book) :
    (removeFile (toolTempWrite t2 b.book (removeFile b.files (tmpName b.book)))
        (tmpName b.book)).filter (fun f => isMp3 f.name) = mp3Files b :=
  (congrArg (List.filter (fun f => isMp3 f.name))
    (removeFile_toolTempWrite t2 b.book b.files)).trans (filter_mp3_removeFile_tmp b)

theorem m4aFiles_after_failure (t2 : ToolOutcome) (b : Book) :
    (removeFile (toolTempWrite t2 b.book (removeFile b.files (tmpName b.book)))
        (tmpName b.book)).filter (fun f => isM4a f.name) = m4aFiles b :=
  (congrArg (List.filter (fun f => isM4a f.name))
    (removeFile_toolTempWrite t2 b.book b.files)).trans (filter_m4a_removeFile_tmp b)

/-- C4: when the external tool succeeds and its temp file is at least
5 MiB, the step result is literally `backupSources` applied to the book
whose temp was first renamed (`mv -f`) to the canonical `Book.m4b` —
rename strictly before backup; afterwards the canonical output exists,
`_backup_files` exists and the created counter rises by one; every
consumed source file (MP3s on the MP3 branch, M4As otherwise) lands in
the backup and leaves the top level; and no failure shape ever touches
the backups, the backup directory, or the source files. -/
theorem C4_validated_success (b : Book) (tool : ToolOutcome) (sz : Nat)
    (hc : classifyBook b = Plan.convertMp3 ∨ classifyBook b = Plan.convertSingleM4a ∨
      classifyBook b = Plan.convertMultiM4a)
    (hok : tool.exitOk = true) (htr : tool.tmpResult = some sz) (hsz : MIN_BYTES ≤ sz) :
    convertBookStep false tool b =
      (.created,
        backupSources (classifyBook b == Plan.convertMp3)
          { b with files := mvFile (removeFile b.files (tmpName b.book) ++
              [(⟨tmpName b.book, sz⟩ : SFile)]) (tmpName b.book) (outName b.book) })
  ∧ hasFile (convertBookStep false tool b).2.files (outName b.book) = true
  ∧ (convertBookStep false tool b).2.backupDir = true
  ∧ (∀ st : ConvCounts, applyOutcome st b (convertBookStep false tool b).1 =
      { st with created := st.created + 1
                createdFiles := st.createdFiles ++ [bookPath b ++ "/" ++ outName b.book] })
  ∧ (classifyBook b = Plan.convertMp3 →
      ∀ f ∈ mp3Files b, f ∈ (convertBookStep false tool b).2.backupFiles
        ∧ f ∉ (convertBookStep false tool b).2.files)
  ∧ ((classifyBook b = Plan.convertSingleM4a ∨ classifyBook b = Plan.convertMultiM4a) →
      ∀ f ∈ m4aFiles b, f ∈ (convertBookStep false tool b).2.backupFiles
        ∧ f ∉ (convertBookStep false tool b).2.files)
  ∧ (∀ t2 : ToolOutcome,
      (t2.exitOk = false ∨ t2.tmpResult = none ∨
        (∃ s2, t2.tmpResult = some s2 ∧ s2 < MIN_BYTES)) →
        (convertBookStep false t2 b).2.backupFiles = b.backupFiles
      ∧ (convertBookStep false t2 b).2.backupDir = b.backupDir
      ∧ mp3Files (convertBookStep false t2 b).2 = mp3Files b
      ∧ m4aFiles (convertBookStep false t2 b).2 = m4aFiles b) := by
  have hstep := convertBookStep_real b tool hc
  have hmain : convertBookStep false tool b =
      (.created,
        backupSources (classifyBook b == Plan.convertMp3)
          { b with files := mvFile (removeFile b.files (tmpName b.book) ++
              [(⟨tmpName b.book, sz⟩ : SFile)]) (tmpName b.book) (outName b.book) }) := by
    rw [hstep, runToolAndFinalize_success _ _ _ sz hok htr hsz]
    have hfiles : toolTempWrite tool (stripStaleTemp b).book (stripStaleTemp b).files =
        removeFile b.files (tmpName b.book) ++ [(⟨tmpName b.book, sz⟩ : SFile)] := by
      unfold toolTempWrite
      rw [htr]
      rfl
    rw [hfiles]
    rfl
  set outF : SFile := ⟨outName b.book, sz⟩ with houtF
  have hout : outF ∈
      mvFile (removeFile b.files (tmpName b.book) ++ [(⟨tmpName b.book, sz⟩ : SFile)])
        (tmpName b.book) (outName b.book) := by
    rw [mvFile_temp_to_out]
    exact List.mem_append_right _ (by simp [houtF])
  refine ⟨hmain, ?_, ?_, ?_, ?_, ?_, ?_⟩
  · rw [hmain]
    show hasFile (backupSources (classifyBook b == Plan.convertMp3) _).files _ = true
    rw [backupSources_files]
    apply (hasFile_iff _ _).mpr
    refine ⟨outF, ?_, rfl⟩
    apply List.mem_filter.mpr
    refine ⟨hout, ?_⟩
    cases (classifyBook b == Plan.convertMp3) with
    | true => simp [consumedPred_true, houtF, isMp3_outName]
    | false => simp [consumedPred_false, houtF, isM4a_outName]
  · rw [hmain]
    exact backupSources_backupDir _ _
  · intro st
    rw [hmain]
    rfl
  · intro hmp3 f hf
    have hbr : (classifyBook b == Plan.convertMp3) = true := by
      rw [hmp3]
      decide
    rw [hmain, hbr]
    have hfp : isMp3 f.name = true := (List.mem_filter.mp hf).2
    have hmoved :
        (mvFile (removeFile b.files (tmpName b.book) ++ [(⟨tmpName b.book, sz⟩ : SFile)])
          (tmpName b.book) (outName b.book)).filter (fun g => consumedPred true g) =
          mp3Files b := by
      have := filter_mvFile_temp_to_out b sz isMp3 (isMp3_tmpName b.book) (isMp3_outName b.book)
      exact this
    constructor
    · show f ∈ (backupSources true _).backupFiles
      rw [backupSources_backupFiles]
      apply List.mem_append_right
      rw [hmoved]
      exact hf
    · show f ∉ (backupSources true _).files
      rw [backupSources_files]
      intro hcontra
      have h2 := (List.mem_filter.mp hcontra).2
      rw [consumedPred_true, hfp] at h2
      exact absurd h2 (by decide)
  · intro hm4a f hf
    have hbr : (classifyBook b == Plan.convertMp3) = false := by
      rcases hm4a with h | h <;> rw [h] <;> decide
    rw [hmain, hbr]
    have hfp : isM4a f.name = true := (List.mem_filter.mp hf).2
    have hmoved :
        (mvFile (removeFile b.files (tmpName b.book) ++ [(⟨tmpName b.book, sz⟩ : SFile)])
          (tmpName b.book) (outName b.book)).filter (fun g => consumedPred false g) =
          m4aFiles b := by
      have := filter_mvFile_temp_to_out b sz isM4a (isM4a_tmpName b.book) (isM4a_outName b.book)
      exact this
    constructor
    · show f ∈ (backupSources false _).backupFiles
      rw [backupSources_backupFiles]
      apply List.mem_append_right
      rw [hmoved]
      exact hf
    · show f ∉ (backupSources false _).files
      rw [backupSources_files]
      intro hcontra
      have h2 := (List.mem_filter.mp hcontra).2
      rw [consumedPred_false, hfp] at h2
      exact absurd h2 (by decide)
  · intro t2 hshape
    have hstep2 := convertBookStep_real b t2 hc
    have hexitcase : ∀ hex : t2.exitOk = false,
        (convertBookStep false t2 b).2.backupFiles = b.backupFiles
      ∧ (convertBookStep false t2 b).2.backupDir = b.backupDir
      ∧ mp3Files (convertBookStep false t2 b).2 = mp3Files b
      ∧ m4aFiles (convertBookStep false t2 b).2 = m4aFiles b := by
      intro hex
      rw [hstep2, runToolAndFinalize_exitFalse _ _ _ hex]
      exact ⟨rfl, rfl,
        mp3Files_files_eq b _ (mp3Files_after_failure t2 b),
        m4aFiles_files_eq b _ (m4aFiles_after_failure t2 b)⟩
    rcases hshape with hex | hmiss | ⟨s2, hs2, hlt⟩
    · exact hexitcase hex
    · by_cases hex2 : t2.exitOk = true
      · rw [hstep2, runToolAndFinalize_missing _ _ _ hex2 hmiss]
        exact ⟨rfl, rfl,
          mp3Files_files_eq b _ (filter_mp3_removeFile_tmp b),
          m4aFiles_files_eq b _ (filter_m4a_removeFile_tmp b)⟩
      · exact hexitcase (by
          cases hval : t2.exitOk
          · rfl
          · exact absurd hval hex2)
    · by_cases hex2 : t2.exitOk = true
      · rw [hstep2, runToolAndFinalize_small _ _ _ s2 hex2 hs2 hlt]
        have hfiles2 : toolTempWrite t2 (stripStaleTemp b).book (stripStaleTemp b).files =
            removeFile b.files (tmpName b.book) ++ [(⟨tmpName b.book, s2⟩ : SFile)] := by
          unfold toolTempWrite
          rw [hs2]
          rfl
        refine ⟨rfl, rfl, ?_, ?_⟩
        · exact mp3Files_files_eq b _ (by
            rw [hfiles2, List.filter_append, filter_mp3_removeFile_tmp]
            simp [isMp3_tmpName])
        · exact m4aFiles_files_eq b _ (by
            rw [hfiles2, List.filter_append, filter_m4a_removeFile_tmp]
            simp [isM4a_tmpName])
      · exact hexitcase (by
          cases hval : t2.exitOk
          · rfl
          · exact absurd hval hex2)

/-- C4 witness: a real run over `Author/BookA` holding `01.mp3` and
`02.mp3` with a six-million-byte tool output: the canonical `BookA.m4b`
exists afterwards, `_backup_files` exists, and `01.mp3` landed in it. -/
theorem C4_validated_success_witness :
    hasFile (convertBookStep false ⟨true, some 6000000⟩
        ⟨"Author", "BookA", [⟨"01.mp3", 7⟩, ⟨"02.mp3", 8⟩], false, []⟩).2.files
      (outName "BookA") = true
  ∧ (convertBookStep false ⟨true, some 6000000⟩
        ⟨"Author", "BookA", [⟨"01.mp3", 7⟩, ⟨"02.mp3", 8⟩], false, []⟩).2.backupDir = true
  ∧ (⟨"01.mp3", 7⟩ : SFile) ∈ (convertBookStep false ⟨true, some 6000000⟩
        ⟨"Author", "BookA", [⟨"01.mp3", 7⟩, ⟨"02.mp3", 8⟩], false, []⟩).2.backupFiles :=
  ⟨(C4_validated_success ⟨"Author", "BookA", [⟨"01.mp3", 7⟩, ⟨"02.mp3", 8⟩], false, []⟩
      ⟨true, some 6000000⟩ 6000000 (Or.inl (by decide)) rfl rfl (by decide)).2.1,
   (C4_validated_success ⟨"Author", "BookA", [⟨"01.mp3", 7⟩, ⟨"02.mp3", 8⟩], false, []⟩
      ⟨true, some 6000000⟩ 6000000 (Or.inl (by decide)) rfl rfl (by decide)).2.2.1,
   ((C4_validated_success ⟨"Author", "BookA", [⟨"01.mp3", 7⟩, ⟨"02.mp3", 8⟩], false, []⟩
      ⟨true, some 6000000⟩ 6000000 (Or.inl (by decide)) rfl rfl (by decide)).2.2.2.2.1
      (by decide) ⟨"01.mp3", 7⟩ (by decide)).1⟩

/-!
## C6: correct mode
-/

theorem filter_comm_sfile (l : List SFile) (p q : SFile → Bool) :
    (l.filter p).filter q = (l.filter q).filter p := by
  induction l with
  | nil => rfl
  | cons f t ih =>
    cases hp : p f <;> cases hq : q f <;>
      simp [List.filter_cons, hp, hq, ih]

/-- A book's unique `.m4b`: the file `mv -f` actually renames is the one
`find?` locates, and with exactly one `.m4b` present that is it. -/
theorem find?_of_unique_m4b (b : Book) (x : SFile) (hm : m4bFiles b = [x]) :
    b.files.find? (fun f => f.name = x.name) = some x := by
  have hxm : x ∈ m4bFiles b := by rw [hm]; simp
  have hx : x ∈ b.files := (List.mem_filter.mp hxm).1
  have hxb : isM4b x.name = true := (List.mem_filter.mp hxm).2
  cases hfind : b.files.find? (fun f => decide (f.name = x.name)) with
  | none =>
    rw [List.find?_eq_none] at hfind
    have := hfind x hx
    simp at this
  | some t =>
    have ht := List.find?_some hfind
    have htl := List.mem_of_find?_eq_some hfind
    have htn : t.name = x.name := by simpa using ht
    have htb : isM4b t.name = true := by rw [htn]; exact hxb
    have htm : t ∈ m4bFiles b := List.mem_filter.mpr ⟨htl, htb⟩
    rw [hm] at htm
    simp at htm
    rw [htm]

/-- C6: real-mode correct pass on one non-`#recycle` book: zero `.m4b`
files are counted skipped-none; two or more counted skipped-multiple with
no rename; a unique `.m4b` not named `"Book - Author.m4b"` is renamed to
exactly that name and counts one rename; a unique `.m4b` already so named
is left alone. -/
theorem C6_correct_mode (b : Book) (hb : b.author ≠ "#recycle") (stc : CorrectCounts) :
    (m4bFiles b = [] →
        correctBookStep false b = (.skippedNone, b)
      ∧ applyCorrect stc .skippedNone = { stc with skippedNone := stc.skippedNone + 1 })
  ∧ (∀ (x y : SFile) (l : List SFile), m4bFiles b = x :: y :: l →
        correctBookStep false b = (.skippedMulti, b)
      ∧ applyCorrect stc .skippedMulti = { stc with skippedMulti := stc.skippedMulti + 1 })
  ∧ (∀ x : SFile, m4bFiles b = [x] → x.name ≠ desiredName b →
        (correctBookStep false b).1 = .renamed
      ∧ (correctBookStep false b).2 =
          { b with files := mvFile b.files x.name (desiredName b) }
      ∧ hasFile (correctBookStep false b).2.files (desiredName b) = true
      ∧ applyCorrect stc .renamed = { stc with renamed := stc.renamed + 1 })
  ∧ (∀ x : SFile, m4bFiles b = [x] → x.name = desiredName b →
        correctBookStep false b = (.alreadyCorrect, b)) := by
  refine ⟨?_, ?_, ?_, ?_⟩
  · intro hm
    constructor
    · unfold correctBookStep
      rw [if_neg hb, hm]
    · rfl
  · intro x y l hm
    constructor
    · unfold correctBookStep
      rw [if_neg hb, hm]
    · rfl
  · intro x hm hne
    have hstep : correctBookStep false b =
        (.renamed, { b with files := mvFile b.files x.name (desiredName b) }) := by
      unfold correctBookStep
      rw [if_neg hb, hm]
      simp [hne]
    refine ⟨by rw [hstep], by rw [hstep], ?_, rfl⟩
    rw [hstep]
    show hasFile (mvFile b.files x.name (desiredName b)) (desiredName b) = true
    unfold mvFile
    rw [find?_of_unique_m4b b x hm, hasFile_append]
    have h1 : hasFile [(⟨desiredName b, x.size⟩ : SFile)] (desiredName b) = true := by
      simp [hasFile]
    rw [h1]
    simp
  · intro x hm heq
    unfold correctBookStep
    rw [if_neg hb, hm]
    simp [heq]

/-- C6 witness: a book with one wrongly named `.m4b` gets it renamed to
`"Book - Author.m4b"`; one with two `.m4b` files is skipped-multiple. -/
theorem C6_correct_mode_witness :
    (correctBookStep false ⟨"Author", "Book", [⟨"old.m4b", 10⟩], false, []⟩).1 = .renamed
  ∧ hasFile (correctBookStep false
      ⟨"Author", "Book", [⟨"old.m4b", 10⟩], false, []⟩).2.files "Book - Author.m4b" = true
  ∧ correctBookStep false ⟨"A", "B", [⟨"x.m4b", 1⟩, ⟨"y.m4b", 2⟩], false, []⟩ =
      (.skippedMulti, ⟨"A", "B", [⟨"x.m4b", 1⟩, ⟨"y.m4b", 2⟩], false, []⟩) :=
  ⟨((C6_correct_mode ⟨"Author", "Book", [⟨"old.m4b", 10⟩], false, []⟩ (by decide)
      initCorrect).2.2.1 ⟨"old.m4b", 10⟩ (by decide) (by decide)).1,
   ((C6_correct_mode ⟨"Author", "Book", [⟨"old.m4b", 10⟩], false, []⟩ (by decide)
      initCorrect).2.2.1 ⟨"old.m4b", 10⟩ (by decide) (by decide)).2.2.1,
   ((C6_correct_mode ⟨"A", "B", [⟨"x.m4b", 1⟩, ⟨"y.m4b", 2⟩], false, []⟩ (by decide)
      initCorrect).2.1 ⟨"x.m4b", 1⟩ ⟨"y.m4b", 2⟩ [] (by decide)).1⟩

/-!
## C7: idempotence
-/

theorem m4bFiles_after_rename (b : Book) (x : SFile) (hm : m4bFiles b = [x]) :
    m4bFiles { b with files := mvFile b.files x.name (desiredName b) } =
      [⟨desiredName b, x.size⟩] := by
  show (mvFile b.files x.name (desiredName b)).filter (fun f => isM4b f.name) = _
  unfold mvFile
  rw [find?_of_unique_m4b b x hm]
  rw [List.filter_append]
  have hsing : ([(⟨desiredName b, x.size⟩ : SFile)]).filter (fun f => isM4b f.name) =
      [⟨desiredName b, x.size⟩] := by
    simp [isM4b_desiredName]
  rw [hsing]
  have h2 : b.files.filter (fun f => isM4b f.name) = [x] := hm
  have hmain : (b.files.filter
      (fun f => decide (f.name ≠ x.name ∧ f.name ≠ desiredName b))).filter
      (fun f => isM4b f.name) = [] := by
    rw [filter_comm_sfile, h2]
    simp
  rw [hmain]
  simp

/-- A second correct pass never renames: whatever the first pass did to a
book, the result is no longer in the rename case. -/
theorem correctBookStep_idem (b : Book) :
    (correctBookStep false (correctBookStep false b).2).1 ≠ CorrectOutcome.renamed := by
  by_cases hb : b.author = "#recycle"
  · have h1 : correctBookStep false b = (.recycleSkip, b) := by
      unfold correctBookStep
      rw [if_pos hb]
    rw [h1]
    show (correctBookStep false b).1 ≠ _
    rw [h1]
    simp
  · cases hm : m4bFiles b with
    | nil =>
      have h1 : correctBookStep false b = (.skippedNone, b) := by
        unfold correctBookStep
        rw [if_neg hb, hm]
      rw [h1]
      show (correctBookStep false b).1 ≠ _
      rw [h1]
      simp
    | cons x l =>
      cases l with
      | nil =>
        by_cases heq : x.name = desiredName b
        · have h1 : correctBookStep false b = (.alreadyCorrect, b) := by
            unfold correctBookStep
            rw [if_neg hb, hm]
            simp [heq]
          rw [h1]
          show (correctBookStep false b).1 ≠ _
          rw [h1]
          simp
        · have h1 : correctBookStep false b =
              (.renamed, { b with files := mvFile b.files x.name (desiredName b) }) := by
            unfold correctBookStep
            rw [if_neg hb, hm]
            simp [heq]
          rw [h1]
          show (correctBookStep false
            { b with files := mvFile b.files x.name (desiredName b) }).1 ≠ _
          have hm2 : m4bFiles { b with files := mvFile b.files x.name (desiredName b) } =
              [⟨desiredName b, x.size⟩] := m4bFiles_after_rename b x hm
          have h2 : correctBookStep false
              { b with files := mvFile b.files x.name (desiredName b) } =
              (.alreadyCorrect, { b with files := mvFile b.files x.name (desiredName b) }) := by
            unfold correctBookStep
            rw [if_neg hb, hm2]
            simp [desiredName]
          rw [h2]
          simp
      | cons y l2 =>
        have h1 : correctBookStep false b = (.skippedMulti, b) := by
          unfold correctBookStep
          rw [if_neg hb, hm]
        rw [h1]
        show (correctBookStep false b).1 ≠ _
        rw [h1]
        simp

theorem classify_hasM4b (b : Book) (h : hasNonTempM4b b = true) :
    classifyBook b = Plan.skipRecycle ∨ classifyBook b = Plan.skipHasM4b := by
  unfold classifyBook
  by_cases hb : b.author = "#recycle"
  · rw [if_pos hb]
    exact Or.inl rfl
  · rw [if_neg hb, if_pos h]
    exact Or.inr rfl

theorem convertBookStep_not_created_of_m4b (dry : Bool) (tool : ToolOutcome) (b : Book)
    (h : hasNonTempM4b b = true) :
    (convertBookStep dry tool b).1 ≠ .created ∧ (convertBookStep dry tool b).1 ≠ .createdDry := by
  rcases classify_hasM4b b h with hc | hc <;> simp [convertBookStep, hc]

/-- C7: a second correct pass over the result of a correct pass performs
zero renames; a book with two (or more) `.m4b` files is skipped-multiple
on both passes; and once every book has a non-temp `.m4b`, a convert pass
creates nothing. -/
theorem C7_idempotence :
    (∀ tree : List Book,
      (correctRun false (correctRun false tree).2).1.renamed = 0)
  ∧ (∀ b : Book, b.author ≠ "#recycle" → ∀ (x y : SFile) (l : List SFile),
      m4bFiles b = x :: y :: l →
      (correctBookStep false b).1 = .skippedMulti
      ∧ (correctBookStep false ((correctBookStep false b).2)).1 = .skippedMulti)
  ∧ (∀ (tree : List Book) (oracle : Book → ToolOutcome) (dry : Bool),
      (∀ b ∈ tree, hasNonTempM4b b = true) →
      (convertRun dry oracle tree).1.created = 0) := by
  refine ⟨?_, ?_, ?_⟩
  · intro tree
    have hmem : ∀ b2 ∈ (correctRun false tree).2,
        (correctBookStep false b2).1 ≠ CorrectOutcome.renamed := by
      intro b2 hb2
      unfold correctRun at hb2
      rw [correctLoop_books] at hb2
      obtain ⟨b, hbmem, hbeq⟩ := List.mem_map.mp hb2
      rw [← hbeq]
      exact correctBookStep_idem b
    exact correctLoop_renamed_const false _ initCorrect hmem
  · intro b hb x y l hm
    have h1 : correctBookStep false b = (.skippedMulti, b) := by
      unfold correctBookStep
      rw [if_neg hb, hm]
    refine ⟨by rw [h1], ?_⟩
    rw [h1]
    show (correctBookStep false b).1 = _
    rw [h1]
  · intro tree oracle dry h
    exact convertLoop_created_const dry oracle tree initCounts
      (fun b hbmem => convertBookStep_not_created_of_m4b dry (oracle b) b (h b hbmem))

/-- C7 witness: two correct passes over a one-book tree rename zero times
the second time; a two-`.m4b` book is skipped-multiple; a tree whose book
already has `done.m4b` yields `created = 0` under convert. -/
theorem C7_idempotence_witness :
    (correctRun false (correctRun false
        [⟨"Author", "Book", [⟨"old.m4b", 10⟩], false, []⟩]).2).1.renamed = 0
  ∧ (correctBookStep false ⟨"A", "B", [⟨"x.m4b", 1⟩, ⟨"y.m4b", 2⟩], false, []⟩).1 =
      .skippedMulti
  ∧ (convertRun false (fun _ => ⟨true, some 6000000⟩)
      [⟨"A", "B", [⟨"done.m4b", 9000000⟩], false, []⟩]).1.created = 0 :=
  ⟨C7_idempotence.1 [⟨"Author", "Book", [⟨"old.m4b", 10⟩], false, []⟩],
   (C7_idempotence.2.1 ⟨"A", "B", [⟨"x.m4b", 1⟩, ⟨"y.m4b", 2⟩], false, []⟩ (by decide)
      ⟨"x.m4b", 1⟩ ⟨"y.m4b", 2⟩ [] (by decide)).1,
   C7_idempotence.2.2 [⟨"A", "B", [⟨"done.m4b", 9000000⟩], false, []⟩]
      (fun _ => ⟨true, some 6000000⟩) false (by
        intro b hb
        simp at hb
        rw [hb]
        decide)⟩

/-!
## C5: cancellation
-/

/-- Every state in a book's conversion trace is the initial folder or has
one of five file-list shapes: after the stale-temp removal, after the
tool wrote (or did not write) the temp, after the failure `rm -f`, after
the `mv -f` to the canonical output (only when the temp was validated in
size), or after the source backup filtered the top level. -/
theorem mem_convertBookTrace (tool : ToolOutcome) (b : Book) (s : Book)
    (hs : s ∈ convertBookTrace tool b) :
    s = b
  ∨ s.files = removeFile b.files (tmpName b.book)
  ∨ s.files = toolTempWrite tool b.book (removeFile b.files (tmpName b.book))
  ∨ s.files = removeFile (toolTempWrite tool b.book (removeFile b.files (tmpName b.book)))
      (tmpName b.book)
  ∨ (∃ sz, tool.tmpResult = some sz ∧ MIN_BYTES ≤ sz ∧
      (s.files = mvFile (removeFile b.files (tmpName b.book) ++ [(⟨tmpName b.book, sz⟩ : SFile)])
          (tmpName b.book) (outName b.book)
       ∨ ∃ br : Bool, s.files =
          (mvFile (removeFile b.files (tmpName b.book) ++ [(⟨tmpName b.book, sz⟩ : SFile)])
            (tmpName b.book) (outName b.book)).filter (fun f => !(consumedPred br f)))) := by
  unfold convertBookTrace at hs
  cases hexv : tool.exitOk with
  | false =>
    rw [hexv] at hs
    simp only [Bool.not_false, if_true, List.mem_cons, List.mem_singleton,
      List.not_mem_nil, or_false] at hs
    rcases hs with h | h | h | h
    · exact Or.inl h
    · subst h
      exact Or.inr (Or.inl rfl)
    · subst h
      exact Or.inr (Or.inr (Or.inl rfl))
    · subst h
      exact Or.inr (Or.inr (Or.inr (Or.inl rfl)))
  | true =>
    rw [hexv] at hs
    simp only [Bool.not_true, Bool.false_eq_true, if_false] at hs
    cases htr : tool.tmpResult with
    | none =>
      rw [htr] at hs
      simp only [List.mem_cons, List.mem_singleton, List.not_mem_nil, or_false] at hs
      rcases hs with h | h | h
      · exact Or.inl h
      · subst h
        exact Or.inr (Or.inl rfl)
      · subst h
        exact Or.inr (Or.inr (Or.inl rfl))
    | some sz =>
      rw [htr] at hs
      simp only [] at hs
      by_cases hsz : sz < MIN_BYTES
      · rw [if_pos hsz] at hs
        simp only [List.mem_cons, List.mem_singleton, List.not_mem_nil, or_false] at hs
        rcases hs with h | h | h
        · exact Or.inl h
        · subst h
          exact Or.inr (Or.inl rfl)
        · subst h
          exact Or.inr (Or.inr (Or.inl (by
            show toolTempWrite tool b.book (removeFile b.files (tmpName b.book)) = _
            rfl)))
      · rw [if_neg hsz] at hs
        have hsz2 : MIN_BYTES ≤ sz := Nat.le_of_not_lt hsz
        simp only [List.mem_cons, List.mem_singleton, List.not_mem_nil, or_false] at hs
        have hb2files : toolTempWrite tool (stripStaleTemp b).book (stripStaleTemp b).files =
            removeFile b.files (tmpName b.book) ++ [(⟨tmpName b.book, sz⟩ : SFile)] := by
          unfold toolTempWrite
          rw [htr]
          rfl
        rcases hs with h | h | h | h | h | h
        · exact Or.inl h
        · subst h
          exact Or.inr (Or.inl rfl)
        · subst h
          exact Or.inr (Or.inr (Or.inl rfl))
        · subst h
          refine Or.inr (Or.inr (Or.inr (Or.inr ⟨sz, rfl, hsz2, Or.inl ?_⟩)))
          show mvFile (toolTempWrite tool (stripStaleTemp b).book (stripStaleTemp b).files)
            (tmpName (stripStaleTemp b).book) (outName (stripStaleTemp b).book) = _
          rw [hb2files]
          rfl
        · subst h
          refine Or.inr (Or.inr (Or.inr (Or.inr ⟨sz, rfl, hsz2, Or.inl ?_⟩)))
          show mvFile (toolTempWrite tool (stripStaleTemp b).book (stripStaleTemp b).files)
            (tmpName (stripStaleTemp b).book) (outName (stripStaleTemp b).book) = _
          rw [hb2files]
          rfl
        · subst h
          refine Or.inr (Or.inr (Or.inr (Or.inr ⟨sz, rfl, hsz2,
            Or.inr ⟨(classifyBook b == Plan.convertMp3), ?_⟩⟩)))
          show ((mvFile (toolTempWrite tool (stripStaleTemp b).book (stripStaleTemp b).files)
              (tmpName (stripStaleTemp b).book) (outName (stripStaleTemp b).book)).filter
            (fun f => !(consumedPred (classifyBook b == Plan.convertMp3) f))) = _
          rw [hb2files]
          rfl

/-- An MP3 book with the tool mid-run: by the time the trap can run, the
tool has written a validated-size temp file. -/
def inflightBook : Book := ⟨"Author", "B", [⟨"01.mp3", 1000⟩], false, []⟩

/-- C5 counterexample: the INT/TERM trap (lines 147–155) performs no
filesystem work, so cancelling at the boundary right after the external
tool wrote the temp file leaves `.tmp_B.m4b` on disk — the in-flight temp
file is not discarded, contrary to the claim. -/
theorem C5_counterexample :
    (convertBookTrace ⟨true, some 6000000⟩ inflightBook).get? 2 =
      some ⟨"Author", "B", [⟨"01.mp3", 1000⟩, ⟨".tmp_B.m4b", 6000000⟩], false, []⟩
  ∧ (on_cancel "convert" false
      ⟨"Author", "B", [⟨"01.mp3", 1000⟩, ⟨".tmp_B.m4b", 6000000⟩], false, []⟩).2.1 =
      ⟨"Author", "B", [⟨"01.mp3", 1000⟩, ⟨".tmp_B.m4b", 6000000⟩], false, []⟩
  ∧ hasFile ((on_cancel "convert" false
      ⟨"Author", "B", [⟨"01.mp3", 1000⟩, ⟨".tmp_B.m4b", 6000000⟩], false, []⟩).2.1).files
      (tmpName "B") = true := by
  decide

/-- C5 amended: cancellation runs the trap at an operation boundary; the
summary carries the explicit reason `canceled` with `success = false`
(distinguishable from a failure), the lock is released by the exit, the
folder is left exactly as the boundary state — so the in-flight temp file
is NOT discarded at cancel time — and at no reachable boundary does any
file at the canonical output path `Book.m4b` have fewer than 5 MiB
(no partial `.m4b` is ever left at a canonical path). -/
theorem C5_cancellation (mode : String) (b : Book) (tool : ToolOutcome) (s : Book)
    (hc : classifyBook b = Plan.convertMp3 ∨ classifyBook b = Plan.convertSingleM4a ∨
      classifyBook b = Plan.convertMultiM4a)
    (hs : s ∈ convertBookTrace tool b) :
    (∀ f ∈ ((on_cancel mode false s).2.1).files, f.name = outName b.book → MIN_BYTES ≤ f.size)
  ∧ (on_cancel mode false s).2.1 = s
  ∧ (on_cancel mode false s).1.reason = some "canceled"
  ∧ (on_cancel mode false s).1.success = false
  ∧ (on_cancel mode false s).2.2 = false := by
  refine ⟨?_, rfl, rfl, rfl, rfl⟩
  show ∀ f ∈ s.files, f.name = outName b.book → MIN_BYTES ≤ f.size
  have hfacts := classify_convert_facts b hc
  have hno : ∀ f ∈ b.files, f.name ≠ outName b.book := by
    intro f hf hn
    have h1 : hasFile b.files (outName b.book) = true := (hasFile_iff _ _).mpr ⟨f, hf, hn⟩
    have h2 : hasFile (removeFile b.files (tmpName b.book)) (outName b.book) = true := by
      rw [hasFile_removeFile_ne _ _ _ (outName_ne_tmpName b.book)]
      exact h1
    rw [hfacts.2.2.2] at h2
    exact absurd h2 (by decide)
  have hOK_b : ∀ f ∈ b.files, f.name = outName b.book → MIN_BYTES ≤ f.size :=
    fun f hf hn => absurd hn (hno f hf)
  have hOK_removed : ∀ f ∈ removeFile b.files (tmpName b.book),
      f.name = outName b.book → MIN_BYTES ≤ f.size :=
    fun f hf hn => hOK_b f ((mem_removeFile_iff f b.files (tmpName b.book)).mp hf).1 hn
  have hOK_ttw : ∀ f ∈ toolTempWrite tool b.book (removeFile b.files (tmpName b.book)),
      f.name = outName b.book → MIN_BYTES ≤ f.size := by
    intro f hf hn
    unfold toolTempWrite at hf
    cases htr : tool.tmpResult with
    | none =>
      rw [htr] at hf
      exact hOK_removed f hf hn
    | some sz2 =>
      rw [htr] at hf
      rcases List.mem_append.mp hf with h1 | h1
      · exact hOK_removed f h1 hn
      · simp only [List.mem_singleton] at h1
        rw [h1] at hn
        simp only [] at hn
        exact absurd hn.symm (outName_ne_tmpName b.book)
  have hOK_mv : ∀ sz : Nat, MIN_BYTES ≤ sz →
      ∀ f ∈ mvFile (removeFile b.files (tmpName b.book) ++ [(⟨tmpName b.book, sz⟩ : SFile)])
          (tmpName b.book) (outName b.book),
        f.name = outName b.book → MIN_BYTES ≤ f.size := by
    intro sz hsz f hf hn
    rw [mvFile_temp_to_out] at hf
    rcases List.mem_append.mp hf with h1 | h1
    · have h2 := (List.mem_filter.mp h1).2
      simp only [decide_eq_true_eq] at h2
      exact absurd hn h2.2
    · simp only [List.mem_singleton] at h1
      rw [h1]
      exact hsz
  rcases mem_convertBookTrace tool b s hs with h | h | h | h | ⟨sz, htr, hsz, h | ⟨br, h⟩⟩
  · subst h
    exact hOK_b
  · rw [h]
    exact hOK_removed
  · rw [h]
    exact hOK_ttw
  · rw [h]
    intro f hf hn
    exact hOK_ttw f ((mem_removeFile_iff f _ _).mp hf).1 hn
  · rw [h]
    exact hOK_mv sz hsz
  · rw [h]
    intro f hf hn
    exact hOK_mv sz hsz f (List.mem_filter.mp hf).1 hn

/-- C5 witness: the amended theorem at the initial boundary of the
in-flight book's trace. -/
theorem C5_cancellation_witness :
    (on_cancel "convert" false inflightBook).1.reason = some "canceled"
  ∧ (on_cancel "convert" false inflightBook).1.success = false
  ∧ (on_cancel "convert" false inflightBook).2.2 = false :=
  ⟨(C5_cancellation "convert" inflightBook ⟨true, some 6000000⟩ inflightBook
      (Or.inl (by decide)) (by decide)).2.2.1,
   (C5_cancellation "convert" inflightBook ⟨true, some 6000000⟩ inflightBook
      (Or.inl (by decide)) (by decide)).2.2.2.1,
   (C5_cancellation "convert" inflightBook ⟨true, some 6000000⟩ inflightBook
      (Or.inl (by decide)) (by decide)).2.2.2.2⟩

end M4brew
